import Mathlib

/-!
A shallow embedding, in Lean 4, of the selective PDF content-extraction
pipeline of this repository (obsidian-copilot), together with theorems that
settle the frozen claims about it.

The embedding follows the TypeScript source:
  * `SelectivePDFParser` (page selection, relevance scoring, chapter
    resolution, formatting, sequential bounded extraction, fuzzy matching,
    Levenshtein distance);
  * `PDFParser` / `PDFCache` (per-file cache keys, blob store get/set);
  * `ContextProcessor.parseEmbedOptions` (inline options parsing).

External collaborators are modelled at their interface boundary, as the
spec prescribes:
  * the pdfjs rendering library is a `PDFDoc` value: a page count, a
    per-page structured-extraction oracle (the result of
    `extractPageWithStructure`, whose page-item parsing happens behind the
    pdfjs boundary), and an optional outline whose destinations are already
    resolved to 1-based pages (the `getPageFromDest` oracle);
  * the vault filesystem is an association list from paths to blob strings;
  * `JSON.stringify` / `JSON.parse` and the `crypto-js` MD5 digest are
    function parameters;
  * `Math.log` is a function parameter `mlog : Nat -> Rat`
    (`mlog n` stands for `Math.log(n)`); all other numeric computation of
    the source is over machine floats and is modelled in `Rat`.

JavaScript string primitives (`toLowerCase`, `trim`, `includes`, `indexOf`,
counting `String.match(new RegExp(term, "g"))` occurrences of a literal
term, `parseInt`, `Number.prototype.toFixed`) are given executable models
below.
-/

namespace ObsidianCopilot

/-- JS `\s` (common whitespace characters). -/
def jsIsSpaceChar (c : Char) : Bool :=
  c = ' ' || c = '\t' || c = '\n' || c = '\r' || c = '\x0b' || c = '\x0c' || c = ' '

/-- JS `String.prototype.toLowerCase()` (ASCII case folding). -/
def jsToLower (s : String) : String := String.mk (s.data.map Char.toLower)

/-- JS `String.prototype.trim()`: drop whitespace from both ends. -/
def jsTrim (s : String) : String :=
  String.mk (((s.data.dropWhile jsIsSpaceChar).reverse.dropWhile jsIsSpaceChar).reverse)

/-- JS `a.includes(b)`: `b` occurs as a contiguous substring of `a`. -/
def jsIncludes (a b : String) : Bool := decide (b.data <:+: a.data)

/-! ## Levenshtein distance (`SelectivePDFParser.levenshteinDistance`)

The source fills a `(len2+1) x (len1+1)` dynamic-programming matrix row by
row (`matrix[0][i] = i`, `matrix[j][0] = j`, interior cell = min of
deletion, insertion, substitution) and returns
`matrix[str2.length][str1.length]`.  The embedding computes the same rows:
`levStep` produces the interior of row `j` from row `j-1` (`diag :: up ::
rest` walks the previous row in step with `str1`, `left` is the cell just
written), and `levenshteinDistance` folds the rows over `str2`. -/

/-- Interior cells of one DP row, from the previous row and the cell to the
left. -/
def levStep (c2 : Char) : List Char → Nat → List Nat → List Nat
  | [], _, _ => []
  | c1 :: s1, left, diag :: up :: rest =>
    let cell := min (left + 1) (min (up + 1) (diag + (if c1 = c2 then 0 else 1)))
    cell :: levStep c2 s1 cell (up :: rest)
  | _ :: _, _, _ => []

/-- One full DP row (`matrix[j]`) from the previous row (`matrix[j-1]`). -/
def levRow (s1 : List Char) (prev : List Nat) (c2 : Char) : List Nat :=
  match prev with
  | [] => []
  | p0 :: _ => (p0 + 1) :: levStep c2 s1 (p0 + 1) prev

/-- `SelectivePDFParser.levenshteinDistance(str1, str2)`. -/
def levenshteinDistance (str1 str2 : List Char) : Nat :=
  (str2.foldl (levRow str1) (List.range (str1.length + 1))).getLastD 0

/-! ## Fuzzy matching (`SelectivePDFParser.fuzzyMatch`) -/

/-- `SelectivePDFParser.fuzzyMatch(text1, text2)` at the default threshold
`0.6`: lowercase and trim both strings; containment in either direction
matches immediately; otherwise accept when the normalized Levenshtein
similarity `1 - distance / max(len1, len2)` reaches the threshold. -/
def fuzzyMatch (text1 text2 : String) : Bool :=
  let threshold : ℚ := mkRat 3 5
  let t1 := jsTrim (jsToLower text1)
  let t2 := jsTrim (jsToLower text2)
  if jsIncludes t1 t2 || jsIncludes t2 t1 then true
  else
    let maxLen : ℚ := max t1.length t2.length
    let distance := levenshteinDistance t1.data t2.data
    let similarity : ℚ := 1 - (distance : ℚ) / maxLen
    decide (threshold ≤ similarity)

/-! ## Occurrence counting and first occurrence

`calculateEnhancedRelevance` counts matches with
`text.match(new RegExp(lowerTerm, "g")).length` and finds the first match
with `text.indexOf(lowerTerm)`.  For terms free of regex metacharacters
(the intended inputs) the global match count is the number of
non-overlapping, leftmost occurrences of the literal term. -/

/-- Non-overlapping leftmost occurrence count of a non-empty pattern; the
fuel is at least `hay.length + 1`, and every step consumes at least one
character of `hay`. -/
def countOccurPos (pat : List Char) : Nat → List Char → Nat
  | 0, _ => 0
  | _ + 1, [] => 0
  | fuel + 1, c :: rest =>
    if pat <+: (c :: rest) then 1 + countOccurPos pat fuel ((c :: rest).drop pat.length)
    else countOccurPos pat fuel rest

/-- `hay.match(new RegExp(pat, "g")).length` for a literal pattern `pat`
(the empty pattern matches at every position, giving `length + 1`). -/
def countOccur (pat hay : List Char) : Nat :=
  if pat.length = 0 then hay.length + 1 else countOccurPos pat (hay.length + 1) hay

/-- Scanning worker for `idxOf`, carrying the current position. -/
def idxOfAux (pat : List Char) : Nat → List Char → Option Nat
  | i, rem =>
    if pat <+: rem then some i
    else
      match rem with
      | [] => none
      | _ :: r => idxOfAux pat (i + 1) r

/-- JS `hay.indexOf(pat)`, with `none` standing for the sentinel `-1`. -/
def idxOf (pat hay : List Char) : Option Nat := idxOfAux pat 0 hay

/-! ## Data model (`SelectivePDFParser` interfaces) -/

/-- `TextSection.type`. -/
inductive SectionType where
  | header | paragraph | list | table | footer
deriving DecidableEq, Repr

/-- `TextSection`: a classified contiguous run of page text.  The `level`
field of the source interface is never written by the parser and is
omitted. -/
structure TextSection where
  type : SectionType
  content : String
  x : ℚ
  y : ℚ
  width : ℚ
  height : ℚ
deriving DecidableEq, Repr

/-- `PageMetadata`, as computed by `analyzePageMetadata` (the optional
`language` field is never written and is omitted). -/
structure PageMetadata where
  wordCount : Nat
  avgWordLength : ℚ
  hasNumbers : Bool
  hasReferences : Bool
  textDensity : ℚ
deriving DecidableEq, Repr

/-- The value produced by `extractPageWithStructure` for one page: rendered
content, typed sections, image flag and metadata.  Page-item parsing
(`parseTextStructure`, `combineTextSections`, `analyzePageMetadata`,
`hasImages`) happens behind the pdfjs collaborator boundary and is treated
as the per-page oracle of `PDFDoc`. -/
structure PageData where
  content : String
  sections : List TextSection
  hasImages : Bool
  metadata : PageMetadata
deriving DecidableEq, Repr

/-- `PageContent`: a selected page, as assembled by the extraction
strategies. -/
structure PageContent where
  pageNum : Nat
  content : String
  relevance : ℚ
  sections : List TextSection
  hasImages : Bool
  metadata : PageMetadata
deriving DecidableEq, Repr

/-- One entry of the document's native outline, with its destination
already resolved to a 1-based page (`getPageFromDest` resolves `item.dest`
through the pdfjs collaborator, defaulting to page 1). -/
structure OutlineEntry where
  title : String
  destPage : Nat
deriving DecidableEq, Repr

/-- `PDFSection` (chapter/outline entry). -/
structure PDFSection where
  title : String
  startPage : Nat
  endPage : Nat
  content : String
  confidence : ℚ
deriving DecidableEq, Repr

/-- The opened document, at the interface required of the rendering
collaborator: a page count, the per-page structured-extraction oracle
(`none` = that page's extraction threw and is skipped), and the native
outline (`none` = `getOutline()` returned null or threw). -/
structure PDFDoc where
  numPages : Nat
  page : Nat → Option PageData
  outline : Option (List OutlineEntry)

/-- `pageRange` of `PDFProcessingOptions` («end» is the source's `end`
field, quoted because `end` is a Lean keyword). -/
structure PageRange where
  start : Int
  «end» : Int
deriving DecidableEq, Repr

/-- `PDFProcessingOptions`.  Every field is optional in the source; the
unused `sectionPattern` field is omitted. -/
structure PDFProcessingOptions where
  pageRange : Option PageRange := none
  maxPages : Option Nat := none
  searchTerms : Option (List String) := none
  chapters : Option (List String) := none
  maxCharacters : Option Nat := none
  contextWindow : Option Nat := none
  minRelevanceScore : Option ℚ := none
  extractImages : Option Bool := none
  preserveStructure : Option Bool := none
deriving DecidableEq, Repr

/-- JS `options.field || default` for a numeric option: `undefined` and the
falsy value `0` both fall back to the default. -/
def orDefaultNat (o : Option Nat) (d : Nat) : Nat :=
  match o with
  | some n => if n = 0 then d else n
  | none => d

/-- JS `options.minRelevanceScore || default` over `Rat`. -/
def orDefaultQ (o : Option ℚ) (d : ℚ) : ℚ :=
  match o with
  | some q => if q = 0 then d else q
  | none => d

/-- JS truthiness of `options.searchTerms?.length` / `options.chapters?.length`:
present and non-empty. -/
def optListNonEmpty (o : Option (List String)) : Bool :=
  match o with
  | some l => !l.isEmpty
  | none => false

/-! ## Page access (`extractPageWithStructure`)

`pdf.getPage(n)` throws for page numbers outside `[1, numPages]`;
`extractPageWithStructure` catches every per-page error and returns null,
so callers skip such pages.  Image presence is consulted only when
`options.extractImages` is truthy, else `hasImages` is `false`. -/

/-- `pdf.getPage(pageNum)` + structured extraction, `none` on any per-page
failure (including out-of-range page numbers). -/
def getPageData (doc : PDFDoc) (pageNum : Int) : Option PageData :=
  if pageNum < 1 ∨ (doc.numPages : Int) < pageNum then none else doc.page pageNum.toNat

/-- `SelectivePDFParser.extractPageWithStructure`. -/
def extractPageWithStructure (doc : PDFDoc) (pageNum : Int)
    (options : PDFProcessingOptions) : Option PageData :=
  (getPageData doc pageNum).map fun d =>
    { d with hasImages := if options.extractImages.getD false then d.hasImages else false }

/-! ## Relevance scoring (`calculateEnhancedRelevance`) -/

/-- `SelectivePDFParser.calculateEnhancedRelevance(pageContent, searchTerms)`.
`mlog n` stands for `Math.log(n)`; all other arithmetic is the source's
float arithmetic carried out in `Rat`. -/
def calculateEnhancedRelevance (mlog : Nat → ℚ) (pageContent : PageData)
    (searchTerms : List String) : ℚ :=
  let text := jsToLower pageContent.content
  let score : ℚ := searchTerms.foldl (fun acc term =>
    let lowerTerm := jsToLower term
    let matchCount := countOccur lowerTerm.data text.data
    let base : ℚ := (matchCount : ℚ) * mlog (term.length + 1)
    let withPhrase : ℚ :=
      if jsIncludes term " " then
        let phraseMatches := countOccur lowerTerm.data text.data
        base + (phraseMatches : ℚ) * 2
      else base
    let headerMatches : Nat :=
      ((pageContent.sections.filter fun s => decide (s.type = SectionType.header)).map
        fun s => countOccur lowerTerm.data (jsToLower s.content).data).sum
    let withHeaders : ℚ := withPhrase + (headerMatches : ℚ) * 3
    let positioned : ℚ :=
      match idxOf lowerTerm.data text.data with
      | some firstMatchIndex =>
        withHeaders * (1 - ((firstMatchIndex : ℚ) / (text.length : ℚ)) * mkRat 1 2)
      | none => withHeaders
    acc + positioned) 0
  let normalizedScore := score / (max (text.length : ℚ) 1)
  let s₁ := if pageContent.metadata.hasReferences then normalizedScore * mkRat 12 10 else normalizedScore
  let s₂ := if pageContent.metadata.textDensity > mkRat 1 2 then s₁ * mkRat 11 10 else s₁
  if pageContent.metadata.wordCount > 100 then s₂ * mkRat 11 10 else s₂

/-! ## Content formatting (`formatExtractedContent`) -/

/-- Left-pads the fractional part of `toFixed3` to three digits. -/
def padTo3 (n : Nat) : String :=
  if n < 10 then "00" ++ toString n else if n < 100 then "0" ++ toString n else toString n

/-- Model of JS `x.toFixed(3)` for the nonnegative scores it is applied to:
round half up at the third decimal. -/
def toFixed3 (q : ℚ) : String :=
  let m := (⌊q * 1000 + mkRat 1 2⌋).toNat
  toString (m / 1000) ++ "." ++ padTo3 (m % 1000)

/-- The `--- Page N ---` header of one formatted page, annotated with
`(Relevance: X.XXX)` only when `relevance < 1.0`, and `[Contains Images]`
only when the page has images. -/
def pageHeaderOf (page : PageContent) : String :=
  "\n\n--- Page " ++ toString page.pageNum
    ++ (if page.relevance < 1 then " (Relevance: " ++ toFixed3 page.relevance ++ ")" else "")
    ++ (if page.hasImages then " [Contains Images]" else "")
    ++ " ---\n"

/-- `SelectivePDFParser.formatExtractedContent`: empty input yields the
empty string; otherwise the concatenation of header + content blocks,
trimmed. -/
def formatExtractedContent (pages : List PageContent)
    (_options : PDFProcessingOptions) : String :=
  if pages.isEmpty then ""
  else jsTrim (String.join (pages.map fun page => pageHeaderOf page ++ page.content))

/-! ## Page ranges (`extractPagesWithStructure`, `extractByPageRange`) -/

/-- `SelectivePDFParser.extractPagesWithStructure`: walk `startPage ..
endPage` inclusive, keep every page whose extraction succeeds, at relevance
`1.0`. -/
def extractPagesWithStructure (doc : PDFDoc) (startPage endPage : Int)
    (options : PDFProcessingOptions) : List PageContent :=
  (List.range (endPage - startPage + 1).toNat).filterMap fun i =>
    let pageNum : Int := startPage + i
    (extractPageWithStructure doc pageNum options).map fun pc =>
      { pageNum := pageNum.toNat, content := pc.content, relevance := 1,
        sections := pc.sections, hasImages := pc.hasImages, metadata := pc.metadata }

/-- `const actualStart = Math.max(1, start)`. -/
def pageRangeActualStart (pageRange : PageRange) : Int := max 1 pageRange.start

/-- `const actualEnd = Math.min(end, pdf.numPages)`. -/
def pageRangeActualEnd (doc : PDFDoc) (pageRange : PageRange) : Int :=
  min pageRange.«end» (doc.numPages : Int)

/-- `SelectivePDFParser.extractByPageRange`. -/
def extractByPageRange (doc : PDFDoc) (pageRange : PageRange)
    (options : PDFProcessingOptions) : String :=
  formatExtractedContent
    (extractPagesWithStructure doc (pageRangeActualStart pageRange)
      (pageRangeActualEnd doc pageRange) options) options

/-! ## Search strategy (`selectPagesWithContext`, `extractByIntelligentSearch`)

JS `Set` iterates in insertion order and `Array.prototype.sort` is stable,
so insertion-order duplicate-free lists and a stable insertion sort are
exact models. -/

/-- `Set.prototype.add`: append if not already present. -/
def setAdd (s : List Int) (x : Int) : List Int := if x ∈ s then s else s ++ [x]

/-- `SelectivePDFParser.selectPagesWithContext(pageAnalysis, maxPages,
contextWindow)`: take the top `maxPages` entries, add `pageNum ± i`
(`i = 1 .. contextWindow`) to the selected set, keep the positive page
numbers sorted ascending, cap at `maxPages`, and keep only those numbers
that have an entry in `pageAnalysis` (the `find`), sorted by page
number. -/
def selectPagesWithContext (pageAnalysis : List PageContent)
    (maxPages contextWindow : Nat) : List PageContent :=
  let topPages := pageAnalysis.take (min maxPages pageAnalysis.length)
  let selected : List Int := topPages.foldl (fun sel page =>
    let sel := setAdd sel (page.pageNum : Int)
    (List.range contextWindow).foldl (fun sel i =>
      setAdd (setAdd sel ((page.pageNum : Int) - (i + 1))) ((page.pageNum : Int) + (i + 1)))
      sel) []
  let allPageNums := (selected.filter fun num => decide (0 < num)).insertionSort (· ≤ ·)
  let result := (allPageNums.take maxPages).filterMap fun num =>
    pageAnalysis.find? fun p => decide ((p.pageNum : Int) = num)
  result.insertionSort (fun a b => a.pageNum ≤ b.pageNum)

/-- The first pass of `extractByIntelligentSearch`: score every page of the
document and keep those with `relevance >= minRelevance`, in page order. -/
def searchPageAnalysis (mlog : Nat → ℚ) (doc : PDFDoc) (searchTerms : List String)
    (options : PDFProcessingOptions) (minRelevance : ℚ) : List PageContent :=
  (List.range doc.numPages).filterMap fun idx =>
    let pageNum : Nat := idx + 1
    match extractPageWithStructure doc (pageNum : Int) options with
    | none => none
    | some pageContent =>
      let relevance := calculateEnhancedRelevance mlog pageContent searchTerms
      if minRelevance ≤ relevance then
        some { pageNum := pageNum, content := pageContent.content, relevance := relevance,
               sections := pageContent.sections, hasImages := pageContent.hasImages,
               metadata := pageContent.metadata }
      else none

/-- The page list returned by the search strategy (`selectedPages` in the
source): analysis, stable sort by descending relevance, then selection with
context window. -/
def extractByIntelligentSearchSelected (mlog : Nat → ℚ) (doc : PDFDoc)
    (searchTerms : List String) (options : PDFProcessingOptions) : List PageContent :=
  let maxPages := orDefaultNat options.maxPages 50
  let contextWindow := orDefaultNat options.contextWindow 2
  let minRelevance := orDefaultQ options.minRelevanceScore (mkRat 1 100)
  let pageAnalysis := searchPageAnalysis mlog doc searchTerms options minRelevance
  let sorted := pageAnalysis.insertionSort (fun a b => b.relevance ≤ a.relevance)
  selectPagesWithContext sorted maxPages contextWindow

/-- `SelectivePDFParser.extractByIntelligentSearch`. -/
def extractByIntelligentSearch (mlog : Nat → ℚ) (doc : PDFDoc)
    (searchTerms : List String) (options : PDFProcessingOptions) : String :=
  formatExtractedContent (extractByIntelligentSearchSelected mlog doc searchTerms options) options

/-! ## Section-header pattern library (`SECTION_PATTERNS`)

The five regular expressions of `SECTION_PATTERNS`, as decidable membership
tests.  `\s` is modelled by the common whitespace characters, `\d` by
`[0-9]`, `[A-Z]` by the ASCII uppercase range. -/

/-- ASCII `[A-Z]`. -/
def isUpperAZ (c : Char) : Bool := 'A' ≤ c && c ≤ 'Z'

/-- `/^(?:chapter|section|part)\s+\d+/i`. -/
def patChapterNum (s : String) : Bool :=
  let l := (jsToLower s).data
  ["chapter".data, "section".data, "part".data].any fun w =>
    if w <+: l then
      let rest := l.drop w.length
      let sp := rest.takeWhile jsIsSpaceChar
      !sp.isEmpty &&
        (match rest.dropWhile jsIsSpaceChar with
         | c :: _ => c.isDigit
         | [] => false)
    else false

/-- `/^\d+\.?\s+[A-Z][^.]*$/` (the optional dot, being no whitespace, is
consumed exactly when present). -/
def patNumberedHeading (s : String) : Bool :=
  let l := s.data
  let ds := l.takeWhile Char.isDigit
  if ds.isEmpty then false
  else
    let r₁ := l.dropWhile Char.isDigit
    let r₂ := match r₁ with
      | '.' :: t => t
      | _ => r₁
    let sp := r₂.takeWhile jsIsSpaceChar
    !sp.isEmpty &&
      (match r₂.dropWhile jsIsSpaceChar with
       | c :: t => isUpperAZ c && t.all (· ≠ '.')
       | [] => false)

/-- `/^[A-Z][A-Z\s]{2,}$/`. -/
def patAllCaps (s : String) : Bool :=
  match s.data with
  | c :: t => isUpperAZ c && decide (2 ≤ t.length) && t.all fun d => isUpperAZ d || jsIsSpaceChar d
  | [] => false

/-- `/^(?:introduction|conclusion|abstract|references|bibliography|appendix)/i`. -/
def patSectionName (s : String) : Bool :=
  let l := (jsToLower s).data
  ["introduction".data, "conclusion".data, "abstract".data, "references".data,
   "bibliography".data, "appendix".data].any (· <+: l)

/-- `/^(?:method|results|discussion|related work|background)/i`. -/
def patAcademicName (s : String) : Bool :=
  let l := (jsToLower s).data
  ["method".data, "results".data, "discussion".data, "related work".data,
   "background".data].any (· <+: l)

/-- `SECTION_PATTERNS.some((pattern) => pattern.test(text))`. -/
def sectionPatternsTest (s : String) : Bool :=
  patChapterNum s || patNumberedHeading s || patAllCaps s || patSectionName s || patAcademicName s

/-! ## Outline resolution (`extractEnhancedOutline`, `detectSectionsFromText`) -/

/-- Entry `i` of the outline closes at `startPage(i+1) - 1`; the final
entry closes at the document's last page. -/
def outlineSections (numPages : Nat) : List OutlineEntry → List PDFSection
  | [] => []
  | item :: rest =>
    let endPage := match rest with
      | next :: _ => next.destPage - 1
      | [] => numPages
    { title := item.title, startPage := item.destPage, endPage := endPage,
      content := "", confidence := 1 } :: outlineSections numPages rest

/-- `SelectivePDFParser.extractEnhancedOutline`: the native outline at
confidence `1.0`, or `[]` when the document has none (or `getOutline`
threw). -/
def extractEnhancedOutline (doc : PDFDoc) : List PDFSection :=
  match doc.outline with
  | none => []
  | some outline => outlineSections doc.numPages outline

/-- Per-page step of `detectSectionsFromText`: every header section whose
content matches the pattern library closes the open section at
`pageNum - 1` and opens a new one (confidence `0.8`, provisionally closing
at the last page). -/
def detectSectionsStep (numPages pageNum : Nat) (headers : List TextSection)
    (acc : List PDFSection × Option PDFSection) : List PDFSection × Option PDFSection :=
  headers.foldl (fun acc header =>
    if sectionPatternsTest header.content then
      let opened : PDFSection :=
        { title := header.content, startPage := pageNum, endPage := numPages,
          content := "", confidence := mkRat 8 10 }
      match acc.2 with
      | some cur => (acc.1 ++ [{ cur with endPage := pageNum - 1 }], some opened)
      | none => (acc.1, some opened)
    else acc) acc

/-- The page loop of `detectSectionsFromText`. -/
def detectSectionsLoop (doc : PDFDoc) (options : PDFProcessingOptions) :
    List Nat → List PDFSection × Option PDFSection → List PDFSection × Option PDFSection
  | [], acc => acc
  | pageNum :: rest, acc =>
    match extractPageWithStructure doc (pageNum : Int) options with
    | none => detectSectionsLoop doc options rest acc
    | some pageContent =>
      let headers := pageContent.sections.filter fun s => decide (s.type = SectionType.header)
      detectSectionsLoop doc options rest (detectSectionsStep doc.numPages pageNum headers acc)

/-- `SelectivePDFParser.detectSectionsFromText`: scan up to the first 20
pages' headers; the final open section is closed at the last page. -/
def detectSectionsFromText (doc : PDFDoc) (options : PDFProcessingOptions) : List PDFSection :=
  let maxSamplePages := min 20 doc.numPages
  let (sections, current) :=
    detectSectionsLoop doc options ((List.range maxSamplePages).map (· + 1)) ([], none)
  match current with
  | some cur => sections ++ [cur]
  | none => sections

/-! ## Smart-auto strategy (`intelligentExtraction`) -/

/-- The fields of `analyzeDocumentStructure`'s result that are ever read
(`commonPatterns` and `documentType` never leave their initial values). -/
structure DocStructure where
  hasOutline : Bool
  avgPageLength : ℚ
deriving DecidableEq, Repr

/-- `SelectivePDFParser.analyzeDocumentStructure`: sample the first
`min(5, numPages)` pages (a zero-page document would divide by zero in JS,
yielding NaN; the `Rat` model yields 0 — the field is never read
downstream). -/
def analyzeDocumentStructure (doc : PDFDoc) (options : PDFProcessingOptions) : DocStructure :=
  let samplePages := min 5 doc.numPages
  let outline := extractEnhancedOutline doc
  let totalLength := (((List.range samplePages).map (· + 1)).map fun i =>
    match extractPageWithStructure doc (Int.ofNat i) options with
    | some pc => pc.content.length
    | none => 0).sum
  { hasOutline := !outline.isEmpty, avgPageLength := (totalLength : ℚ) / (samplePages : ℚ) }

/-- `SelectivePDFParser.identifyKeySections`. -/
def identifyKeySections (doc : PDFDoc) (structure_ : DocStructure)
    (options : PDFProcessingOptions) : List PDFSection :=
  if structure_.hasOutline then extractEnhancedOutline doc
  else detectSectionsFromText doc options

/-- The section loop of `extractByIntelligentSections`; `processedPages`
follows the source's JS arithmetic over `Int`. -/
def intelligentSectionsLoop (doc : PDFDoc) (options : PDFProcessingOptions) (maxPages : Nat) :
    List PDFSection → Int → String
  | [], _ => ""
  | sec :: rest, processedPages =>
    if (maxPages : Int) ≤ processedPages then ""
    else
      let sectionPages : Int := (sec.endPage : Int) - (sec.startPage : Int) + 1
      let pagesToProcess : Int := min sectionPages ((maxPages : Int) - processedPages)
      let sectionContent :=
        extractPagesWithStructure doc (sec.startPage : Int)
          ((sec.startPage : Int) + pagesToProcess - 1) options
      "\n\n=== " ++ sec.title ++ " ===\n" ++ formatExtractedContent sectionContent options
        ++ intelligentSectionsLoop doc options maxPages rest (processedPages + pagesToProcess)

/-- `SelectivePDFParser.extractByIntelligentSections`. -/
def extractByIntelligentSections (doc : PDFDoc) (sections : List PDFSection)
    (options : PDFProcessingOptions) : String :=
  let maxPages := orDefaultNat options.maxPages 50
  jsTrim (intelligentSectionsLoop doc options maxPages sections 0)

/-! ## Sequential bounded extraction (`extractWithIntelligentLimits`) -/

/-- The page loop of `extractWithIntelligentLimits`: accumulate pages and
their character count; a page whose size would push the count past
`maxChars` stops the walk before being included (the `Bool` records that
the walk stopped on the character boundary; the source's loop `break`). -/
def seqLoop (doc : PDFDoc) (options : PDFProcessingOptions) (maxChars : Nat) :
    List Nat → Nat → List PageContent × Nat × Bool
  | [], charCount => ([], charCount, false)
  | pageNum :: rest, charCount =>
    match extractPageWithStructure doc (pageNum : Int) options with
    | none => seqLoop doc options maxChars rest charCount
    | some pageContent =>
      let pageSize := pageContent.content.length
      if maxChars < charCount + pageSize then ([], charCount, true)
      else
        let r := seqLoop doc options maxChars rest (charCount + pageSize)
        ({ pageNum := pageNum, content := pageContent.content, relevance := 1,
           sections := pageContent.sections, hasImages := pageContent.hasImages,
           metadata := pageContent.metadata } :: r.1, r.2)

/-- The page numbers walked by `extractWithIntelligentLimits`:
`1 .. min(maxPages, numPages)`. -/
def seqPageNums (doc : PDFDoc) (maxPages : Nat) : List Nat :=
  (List.range (min maxPages doc.numPages)).map (· + 1)

/-- The loop state reached by `extractWithIntelligentLimits`. -/
def seqState (doc : PDFDoc) (maxPages maxChars : Nat)
    (options : PDFProcessingOptions) : List PageContent × Nat × Bool :=
  seqLoop doc options maxChars (seqPageNums doc maxPages) 0

/-- The pages included by sequential bounded extraction. -/
def seqPages (doc : PDFDoc) (maxPages maxChars : Nat)
    (options : PDFProcessingOptions) : List PageContent :=
  (seqState doc maxPages maxChars options).1

/-- The accumulated character count of sequential bounded extraction. -/
def seqCharCount (doc : PDFDoc) (maxPages maxChars : Nat)
    (options : PDFProcessingOptions) : Nat :=
  (seqState doc maxPages maxChars options).2.1

/-- Whether the sequential walk stopped on the character boundary. -/
def seqBrokeOnChars (doc : PDFDoc) (maxPages maxChars : Nat)
    (options : PDFProcessingOptions) : Bool :=
  (seqState doc maxPages maxChars options).2.2

/-- The truncation notice of `extractWithIntelligentLimits`. -/
def truncationNotice (maxChars numPages : Nat) : String :=
  "\n\n[... Truncated at " ++ toString maxChars ++ " characters. Total pages in PDF: "
    ++ toString numPages ++ " ...]"

/-- `SelectivePDFParser.extractWithIntelligentLimits`: the notice is
appended under the source's condition `charCount >= maxChars`. -/
def extractWithIntelligentLimits (doc : PDFDoc) (maxPages maxChars : Nat)
    (options : PDFProcessingOptions) : String :=
  let st := seqState doc maxPages maxChars options
  let result := formatExtractedContent st.1 options
  if maxChars ≤ st.2.1 then result ++ truncationNotice maxChars doc.numPages else result

/-- `SelectivePDFParser.intelligentExtraction`. -/
def intelligentExtraction (doc : PDFDoc) (options : PDFProcessingOptions) : String :=
  let maxPages := orDefaultNat options.maxPages 50
  let maxChars := orDefaultNat options.maxCharacters 100000
  let documentStructure := analyzeDocumentStructure doc options
  let keySections := identifyKeySections doc documentStructure options
  if !keySections.isEmpty then extractByIntelligentSections doc keySections options
  else extractWithIntelligentLimits doc maxPages maxChars options

/-! ## Chapter strategy (`extractByChapters`) -/

/-- `SelectivePDFParser.detectChaptersInText`: scan up to 50 pages'
headers; each fuzzy match of a requested chapter opens a synthetic
10-page section at confidence `0.7`. -/
def detectChaptersInText (doc : PDFDoc) (chapters : List String)
    (options : PDFProcessingOptions) : List PDFSection :=
  ((List.range (min 50 doc.numPages)).map (· + 1)).foldl (fun acc pageNum =>
    match extractPageWithStructure doc (Int.ofNat pageNum) options with
    | none => acc
    | some pageContent =>
      let headers := pageContent.sections.filter fun s => decide (s.type = SectionType.header)
      acc ++ headers.foldl (fun acc2 header =>
        acc2 ++ chapters.filterMap fun chapter =>
          if fuzzyMatch header.content chapter then
            some { title := header.content, startPage := pageNum, endPage := pageNum + 10,
                   content := "", confidence := mkRat 7 10 }
          else none) []) []

/-- `SelectivePDFParser.extractChapterContent`. -/
def extractChapterContent (doc : PDFDoc) (chapters : List PDFSection)
    (options : PDFProcessingOptions) : String :=
  jsTrim (chapters.foldl (fun fullText chapter =>
    fullText ++ "\n\n=== " ++ chapter.title ++ " ===\n"
      ++ formatExtractedContent
           (extractPagesWithStructure doc (chapter.startPage : Int) (chapter.endPage : Int) options)
           options) "")

/-- `SelectivePDFParser.extractByChapters`: outline first, then text-based
chapter detection, then search with chapter names as terms and
`maxPages = 20`. -/
def extractByChapters (mlog : Nat → ℚ) (doc : PDFDoc) (chapters : List String)
    (options : PDFProcessingOptions) : String :=
  let outline := extractEnhancedOutline doc
  let matchingChapters := outline.filter fun sec =>
    chapters.any fun chapter =>
      fuzzyMatch sec.title chapter || jsIncludes (jsToLower sec.title) (jsToLower chapter)
  if !matchingChapters.isEmpty then extractChapterContent doc matchingChapters options
  else
    let detectedChapters := detectChaptersInText doc chapters options
    if !detectedChapters.isEmpty then extractChapterContent doc detectedChapters options
    else extractByIntelligentSearch mlog doc chapters { options with maxPages := some 20 }

/-! ## Entry point (`extractTextFromPDF`) -/

/-- `SelectivePDFParser.extractTextFromPDF`: `openResult` is the outcome of
`pdfjsLib.getDocument(...)` on the raw bytes; an open failure is rethrown
as `Selective PDF parsing failed: <message>`.  On success the strategy
priority is chapters > searchTerms > pageRange > smart auto. -/
def extractTextFromPDF (mlog : Nat → ℚ) (openResult : Except String PDFDoc)
    (options : PDFProcessingOptions) : Except String String :=
  match openResult with
  | .error e => .error ("Selective PDF parsing failed: " ++ e)
  | .ok pdf =>
    if optListNonEmpty options.chapters then
      .ok (extractByChapters mlog pdf (options.chapters.getD []) options)
    else if optListNonEmpty options.searchTerms then
      .ok (extractByIntelligentSearch mlog pdf (options.searchTerms.getD []) options)
    else
      match options.pageRange with
      | some pageRange => .ok (extractByPageRange pdf pageRange options)
      | none => .ok (intelligentExtraction pdf options)

/-! ## Local sequential parser (`LocalPDFParser.extractTextFromPDF`)

Used by the façade when the effective options are empty.  Its page walk
happens behind the pdfjs boundary; the model keeps only what the façade's
error handling observes: an open failure is rethrown as
`Local PDF parsing failed: <message>`, success yields the assembled text
(here abstracted as a function of the document's per-page oracle). -/

/-- One page of `LocalPDFParser`'s output (`[Error: ...]` placeholder when
the page threw, nothing when the page text is empty). -/
def localPageBlock (doc : PDFDoc) (pageNum : Nat) : String :=
  match getPageData doc (pageNum : Int) with
  | none => "\n\n--- Page " ++ toString pageNum ++ " ---\n[Error: Could not extract text from this page]"
  | some pd =>
    if pd.content = "" then ""
    else "\n\n--- Page " ++ toString pageNum ++ " ---\n" ++ pd.content

/-- `LocalPDFParser.extractTextFromPDF` (the collaborator's whitespace-
normalized page text is the oracle's `content`). -/
def localExtractTextFromPDF (openResult : Except String PDFDoc) : Except String String :=
  match openResult with
  | .error e => .error ("Local PDF parsing failed: " ++ e)
  | .ok pdf =>
    let fullText :=
      String.join (((List.range pdf.numPages).map (· + 1)).map (localPageBlock pdf))
    if jsTrim fullText = "" then .ok "[No text content found in PDF - may be image-based or encrypted]"
    else .ok (jsTrim fullText)

/-! ## Per-file cache (`PDFCache`, `src/cache/pdfCache.ts`)

The vault filesystem is an association list from paths to blob strings
(`adapter.write` prepends, `adapter.read`/`exists` consult the most recent
write).  `JSON.stringify` / `JSON.parse` are codec parameters; a `parse`
failure (the source's caught exception) and a missing blob both yield the
miss value `null`. -/

/-- The vault filesystem: path ↦ blob content, newest write first. -/
def VaultFS : Type := List (String × String)

/-- `app.vault.adapter.write(path, data)` (overwrites: the newest entry
shadows older ones). -/
def fsWrite (fs : VaultFS) (path data : String) : VaultFS := (path, data) :: fs

/-- `app.vault.adapter.read(path)` guarded by `exists(path)`: `none` when
no blob exists at `path`. -/
def fsRead (fs : VaultFS) (path : String) : Option String :=
  (fs.find? fun e => decide (e.1 = path)).map (·.2)

/-- `PDFCache.cacheDir`. -/
def cacheDir : String := ".copilot/pdf-cache"

/-- `PDFCache.getCachePath(cacheKey)`. -/
def getCachePath (cacheKey : String) : String := cacheDir ++ "/" ++ cacheKey ++ ".json"

/-- `PDFCache.getWithKey(cacheKey)`: read the blob at the key's path and
JSON-parse it; a missing blob or a parse error is the miss `none`
(`ensureCacheDir` touches only directories and is invisible to blob
content). -/
def getWithKey {α : Type} (parse : String → Option α) (fs : VaultFS)
    (cacheKey : String) : Option α :=
  match fsRead fs (getCachePath cacheKey) with
  | some content => parse content
  | none => none

/-- `PDFCache.setWithKey(cacheKey, response)`. -/
def setWithKey {α : Type} (stringify : α → String) (fs : VaultFS)
    (cacheKey : String) (response : α) : VaultFS :=
  fsWrite fs (getCachePath cacheKey) (stringify response)

/-- The file identity used for cache keys (`TFile.path`, `stat.size`,
`stat.mtime`). -/
structure TFileModel where
  path : String
  basename : String
  size : Nat
  mtime : Nat
deriving DecidableEq, Repr

/-- `path:size:mtime`, the metadata string both key schemes start from. -/
def cacheBaseKey (file : TFileModel) : String :=
  file.path ++ ":" ++ toString file.size ++ ":" ++ toString file.mtime

/-- `PDFCache.getCacheKey(file)`: the MD5 digest (a codec parameter
`md5hex`) of `path:size:mtime` — no options component. -/
def pdfCacheGetCacheKey (md5hex : String → String) (file : TFileModel) : String :=
  md5hex (cacheBaseKey file)

/-- `Object.keys(options).length === 0` for a `PDFProcessingOptions`
object: no field present. -/
def optionsEmpty (options : PDFProcessingOptions) : Bool :=
  options.pageRange.isNone && options.maxPages.isNone && options.searchTerms.isNone
    && options.chapters.isNone && options.maxCharacters.isNone && options.contextWindow.isNone
    && options.minRelevanceScore.isNone && options.extractImages.isNone
    && options.preserveStructure.isNone

/-- JS truthiness + emptiness of the façade's `options` parameter:
`!options || Object.keys(options).length === 0`. -/
def optionsAbsentOrEmpty (options : Option PDFProcessingOptions) : Bool :=
  match options with
  | none => true
  | some o => optionsEmpty o

/-- `PDFParser.getCacheKeyWithOptions(file, options)`: the raw metadata
string, with `:JSON(options)` appended exactly when options are present
and non-empty (`jsonStr` is the `JSON.stringify` collaborator).  Note: no
digest is applied here. -/
def getCacheKeyWithOptions (jsonStr : PDFProcessingOptions → String) (file : TFileModel)
    (options : Option PDFProcessingOptions) : String :=
  let baseKey := cacheBaseKey file
  if optionsAbsentOrEmpty options then baseKey
  else baseKey ++ ":" ++ jsonStr (options.getD {})

/-! ## Parsing façade (`PDFParser.parseFile`, `src/tools/FileParserManager.ts`) -/

/-- The cached response object (`{ response, elapsed_time_ms, options? }`). -/
structure CachedPdfResponse where
  response : String
  elapsed_time_ms : Nat
  options : Option PDFProcessingOptions
deriving DecidableEq, Repr

/-- `PDFParser.getProcessingOptions(fileSize, userOptions)`: size-based
smart defaults when no user options were provided (`sizeMB = size / 2^20`,
compared over `Rat` as the source compares floats). -/
def getProcessingOptions (fileSize : Nat) (userOptions : Option PDFProcessingOptions) :
    PDFProcessingOptions :=
  let sizeMB : ℚ := (fileSize : ℚ) / 1048576
  if optionsAbsentOrEmpty userOptions then
    if sizeMB > 50 then { maxPages := some 20, maxCharacters := some 50000 }
    else if sizeMB > 10 then { maxPages := some 50, maxCharacters := some 100000 }
    else {}
  else userOptions.getD {}

/-- `PDFParser.parseFile(file, vault, options)`: consult the per-file cache
under the raw options-qualified key; on a miss, extract with the selective
parser when the effective options are non-empty (else the local parser),
cache the response, and return the text.  Any thrown error — in particular
a document-open failure — is caught and embedded as
`[Error: Could not extract content from PDF <basename>. <message>]`; the
function never rethrows.  Returns the string handed to the caller and the
filesystem after the call. -/
def parseFile (jsonStr : PDFProcessingOptions → String)
    (parse : String → Option CachedPdfResponse) (stringify : CachedPdfResponse → String)
    (mlog : Nat → ℚ) (fs : VaultFS) (file : TFileModel)
    (options : Option PDFProcessingOptions) (openResult : Except String PDFDoc) :
    String × VaultFS :=
  let cacheKey := getCacheKeyWithOptions jsonStr file options
  match getWithKey parse fs cacheKey with
  | some cachedResponse => (cachedResponse.response, fs)
  | none =>
    let finalOptions := getProcessingOptions file.size options
    let extracted :=
      if !optionsEmpty finalOptions then extractTextFromPDF mlog openResult finalOptions
      else localExtractTextFromPDF openResult
    match extracted with
    | .error msg =>
      ("[Error: Could not extract content from PDF " ++ file.basename ++ ". " ++ msg ++ "]", fs)
    | .ok extractedText =>
      let response : CachedPdfResponse :=
        { response := extractedText, elapsed_time_ms := 0, options := some finalOptions }
      (extractedText, setWithKey stringify fs cacheKey response)

/-! ## Inline options parsing (`ContextProcessor.parseEmbedOptions`)

The embed-syntax parser builds a dynamically-typed options object.  Its
fields keep JS semantics: `maxPages`/`maxCharacters` receive the raw
`parseInt` result, where `none` stands for `NaN`; `searchTerms`/`chapters`
hold the raw split values, where an inner `none` stands for `undefined`
(a part with no `:`).  A `pages` part whose value is `undefined` makes the
source throw (`value.match` on `undefined`), modelled as `Except.error`. -/

/-- The options object built by `parseEmbedOptions`. -/
structure EmbedOptions where
  pageRange : Option (Nat × Nat) := none
  searchTerms : Option (List (Option String)) := none
  chapters : Option (List (Option String)) := none
  maxPages : Option (Option Int) := none
  maxCharacters : Option (Option Int) := none
deriving DecidableEq, Repr

/-- JS `parseInt(s)` in base 10: skip leading whitespace, optional sign,
then the longest run of leading digits; no digits means `NaN` (`none`).
(`0x`-prefixed hexadecimal inputs are not modelled.) -/
def jsParseInt (s : String) : Option Int :=
  let l := s.data.dropWhile jsIsSpaceChar
  let (sign, l') : Int × List Char :=
    match l with
    | '-' :: t => (-1, t)
    | '+' :: t => (1, t)
    | t => (1, t)
  let ds := l'.takeWhile Char.isDigit
  if ds.isEmpty then none
  else some (sign * (ds.foldl (fun acc c => acc * 10 + (c.toNat - '0'.toNat)) 0 : Nat))

/-- `parseInt` applied to a possibly-`undefined` value
(`parseInt(undefined)` is `NaN`). -/
def jsParseIntOpt (v : Option String) : Option Int :=
  match v with
  | none => none
  | some s => jsParseInt s

/-- Digits of a leftmost `/(\d+)-(\d+)/` match as a number. -/
def digitsToNat (ds : List Char) : Nat :=
  ds.foldl (fun acc c => acc * 10 + (c.toNat - '0'.toNat)) 0

/-- Leftmost match of `value.match(/(\d+)-(\d+)/)`: the first position
holding digits, a dash, and digits; the two capture groups as numbers. -/
def pageRangeMatch : List Char → Option (Nat × Nat)
  | [] => none
  | c :: rest =>
    if c.isDigit then
      let ds := (c :: rest).takeWhile Char.isDigit
      match (c :: rest).dropWhile Char.isDigit with
      | '-' :: rest₂ =>
        let ds₂ := rest₂.takeWhile Char.isDigit
        if ds₂.isEmpty then pageRangeMatch rest
        else some (digitsToNat ds, digitsToNat ds₂)
      | _ => pageRangeMatch rest
    else pageRangeMatch rest

/-- Chunking worker for `jsSplitChar`, carrying the reversed current
chunk. -/
def splitCharAux (sep : Char) : List Char → List Char → List (List Char)
  | [], acc => [acc.reverse]
  | c :: rest, acc =>
    if c = sep then acc.reverse :: splitCharAux sep rest []
    else splitCharAux sep rest (c :: acc)

/-- JS `s.split(sep)` for a one-character separator (`"".split(sep)` is
`[""]`). -/
def jsSplitChar (sep : Char) (s : String) : List String :=
  (splitCharAux sep s.data []).map String.mk

/-- One `key:value` part: `part.split(":").map(s => s.trim())`,
destructured into the key and the optional value. -/
def splitPart (part : String) : String × Option String :=
  let segs := (jsSplitChar ':' part).map jsTrim
  (segs.headD "", segs[1]?)

/-- The `switch` body of `parseEmbedOptions` for one part. -/
def applyEmbedOption (acc : EmbedOptions) (part : String) : Except Unit EmbedOptions :=
  let (key, value) := splitPart part
  match jsToLower key with
  | "pages" =>
    match value with
    | none => .error ()
    | some v =>
      match pageRangeMatch v.data with
      | some (s, e) => .ok { acc with pageRange := some (s, e) }
      | none => .ok acc
  | "search" => .ok { acc with searchTerms := some [value] }
  | "chapter" => .ok { acc with chapters := some [value] }
  | "chapters" => .ok { acc with chapters := some [value] }
  | "max" => .ok { acc with maxPages := some (jsParseIntOpt value) }
  | "chars" => .ok { acc with maxCharacters := some (jsParseIntOpt value) }
  | "characters" => .ok { acc with maxCharacters := some (jsParseIntOpt value) }
  | _ => .ok acc

/-- `ContextProcessor.parseEmbedOptions(optionsString)`: an absent options
string yields the empty object; otherwise split on `,` and fold the parts. -/
def parseEmbedOptions (optionsString : Option String) : Except Unit EmbedOptions :=
  match optionsString with
  | none => .ok {}
  | some s => (jsSplitChar ',' s).foldlM applyEmbedOption {}

/-! ## Concrete fixtures used by witnesses and counterexamples -/

/-- A featureless page: no sections, no images, unremarkable metadata. -/
def samplePageData (c : String) : PageData :=
  { content := c, sections := [], hasImages := false,
    metadata := { wordCount := 1, avgWordLength := 1, hasNumbers := false,
                  hasReferences := false, textDensity := mkRat 1 2 } }

/-- An `n`-page document with no outline whose every page parses. -/
def uniformDoc (n : Nat) : PDFDoc :=
  { numPages := n,
    page := fun k =>
      if 1 ≤ k ∧ k ≤ n then some (samplePageData ("content of page " ++ toString k)) else none,
    outline := none }

/-- A two-page document with 6-character pages, for the character-budget
claims. -/
def seqDemoDoc : PDFDoc :=
  { numPages := 2,
    page := fun n =>
      if n = 1 then some (samplePageData "xxxxxx")
      else if n = 2 then some (samplePageData "yyyyyy")
      else none,
    outline := none }

/-- The total length of the page contents included in an extraction. -/
def sumContentLengths (pages : List PageContent) : Nat :=
  (pages.map fun p => p.content.length).sum

/-! ## C4 — fuzzy chapter matching -/

/-- C4: for all strings `a` and `b`, `fuzzyMatch(a, b)` returns true
exactly when either lowercased trimmed string contains the other or the
normalized Levenshtein similarity `1 - distance / max(len1, len2)` is at
least `0.6`; and `levenshteinDistance("kitten", "sitting") = 3`. -/
theorem fuzzyMatch_containment_or_similarity (a b : String) :
    (fuzzyMatch a b = true ↔
      (jsIncludes (jsTrim (jsToLower a)) (jsTrim (jsToLower b)) = true
        ∨ jsIncludes (jsTrim (jsToLower b)) (jsTrim (jsToLower a)) = true
        ∨ (3/5 : ℚ) ≤ 1 -
            (levenshteinDistance (jsTrim (jsToLower a)).data (jsTrim (jsToLower b)).data : ℚ)
              / max ((jsTrim (jsToLower a)).length : ℚ) ((jsTrim (jsToLower b)).length : ℚ)))
    ∧ levenshteinDistance "kitten".data "sitting".data = 3 := by
  refine ⟨?_, by decide⟩
  unfold fuzzyMatch
  by_cases h1 : jsIncludes (jsTrim (jsToLower a)) (jsTrim (jsToLower b)) = true
  · simp [h1]
  · by_cases h2 : jsIncludes (jsTrim (jsToLower b)) (jsTrim (jsToLower a)) = true
    · simp [h1, h2]
    · have h35 : (mkRat 3 5 : ℚ) = 3/5 := by norm_num [Rat.mkRat_eq_div]
      simp [h1, h2, h35]

/-! ## C10 — empty clamped page ranges -/

/-- C10: whenever the clamped start `max(1, start)` exceeds the clamped
end `min(end, numPages)`, the page-range strategy extracts no page and
returns the empty string. -/
theorem extractByPageRange_empty_of_clamped_empty (doc : PDFDoc) (pr : PageRange)
    (options : PDFProcessingOptions)
    (h : pageRangeActualEnd doc pr < pageRangeActualStart pr) :
    extractByPageRange doc pr options = "" := by
  have hz : (pageRangeActualEnd doc pr - pageRangeActualStart pr + 1).toNat = 0 := by omega
  unfold extractByPageRange extractPagesWithStructure
  rw [hz]
  simp [formatExtractedContent]

/-- Witness for C10: `{start: 4, end: 999}` on a 3-page document. -/
theorem extractByPageRange_empty_of_clamped_empty_witness :
    pageRangeActualEnd (uniformDoc 3) ⟨4, 999⟩ < pageRangeActualStart ⟨4, 999⟩
    ∧ extractByPageRange (uniformDoc 3) ⟨4, 999⟩ {} = "" :=
  ⟨by decide, extractByPageRange_empty_of_clamped_empty _ _ _ (by decide)⟩

/-! ## C6 — cache round-trip -/

/-- C6: for every entry type and JSON codec satisfying the round-trip
property (the meaning of "JSON-serializable"), `setWithKey` followed by
`getWithKey` on the same key returns the stored entry, and `getWithKey` on
a key whose blob file does not exist returns the miss value `none`. -/
theorem cache_set_get_roundtrip_and_miss :
    (∀ (α : Type) (stringify : α → String) (parse : String → Option α),
      (∀ e, parse (stringify e) = some e) →
      ∀ (fs : VaultFS) (key : String) (entry : α),
        getWithKey parse (setWithKey stringify fs key entry) key = some entry)
    ∧ (∀ (α : Type) (parse : String → Option α) (fs : VaultFS) (key : String),
        fsRead fs (getCachePath key) = none → getWithKey parse fs key = none) := by
  constructor
  · intro α stringify parse hrt fs key entry
    unfold getWithKey setWithKey fsWrite fsRead
    simp [hrt]
  · intro α parse fs key h
    unfold getWithKey
    rw [h]

/-- Witness for C6 at a concrete codec, key and filesystem. -/
theorem cache_set_get_roundtrip_and_miss_witness :
    getWithKey (fun _ => some ()) (setWithKey (fun _ => "") [] "k" ()) "k" = some ()
    ∧ getWithKey (fun _ => some ()) ([] : VaultFS) "k" = (none : Option Unit) :=
  ⟨cache_set_get_roundtrip_and_miss.1 Unit (fun _ => "") (fun _ => some ())
      (fun _ => rfl) [] "k" (),
    cache_set_get_roundtrip_and_miss.2 Unit (fun _ => some ()) [] "k" rfl⟩

/-! ## C2 — sequential bounded extraction -/

/-- The accumulated character count never exceeds `maxChars` once it is
within budget: a page that would overflow stops the walk before being
included. -/
lemma seqLoop_charCount_le (doc : PDFDoc) (options : PDFProcessingOptions) (maxChars : Nat) :
    ∀ (l : List Nat) (cc : Nat), cc ≤ maxChars →
      (seqLoop doc options maxChars l cc).2.1 ≤ maxChars := by
  intro l
  induction l with
  | nil => intro cc h; simpa [seqLoop] using h
  | cons n rest ih =>
    intro cc h
    rcases hpc : extractPageWithStructure doc (n : Int) options with _ | pc
    · simpa [seqLoop, hpc] using ih cc h
    · by_cases hover : maxChars < cc + pc.content.length
      · simpa [seqLoop, hpc, hover] using h
      · simpa [seqLoop, hpc, hover] using ih (cc + pc.content.length) (by omega)

/-- The final character count is the starting count plus the total length
of the included pages' contents. -/
lemma seqLoop_charCount_eq_sum (doc : PDFDoc) (options : PDFProcessingOptions) (maxChars : Nat) :
    ∀ (l : List Nat) (cc : Nat),
      (seqLoop doc options maxChars l cc).2.1 =
        cc + sumContentLengths (seqLoop doc options maxChars l cc).1 := by
  intro l
  induction l with
  | nil => intro cc; simp [seqLoop, sumContentLengths]
  | cons n rest ih =>
    intro cc
    rcases hpc : extractPageWithStructure doc (n : Int) options with _ | pc
    · simpa [seqLoop, hpc] using ih cc
    · by_cases hover : maxChars < cc + pc.content.length
      · simp [seqLoop, hpc, hover, sumContentLengths]
      · have := ih (cc + pc.content.length)
        simp only [seqLoop, hpc, hover, if_false, sumContentLengths, List.map_cons,
          List.sum_cons] at this ⊢
        omega

/-- C2, amended: the sum of the included page contents' lengths never
exceeds `maxCharacters` (a page that would overflow the budget is excluded
and stops the walk), and the truncation notice — naming the character
limit and the document's true page count — is appended exactly when the
accumulated character count equals `maxCharacters` (the source's
`charCount >= maxChars` check), not whenever extraction was truncated on
the character boundary. -/
theorem extractWithIntelligentLimits_budget_and_notice (doc : PDFDoc)
    (maxPages maxChars : Nat) (options : PDFProcessingOptions) :
    sumContentLengths (seqPages doc maxPages maxChars options) ≤ maxChars
    ∧ seqCharCount doc maxPages maxChars options =
        sumContentLengths (seqPages doc maxPages maxChars options)
    ∧ extractWithIntelligentLimits doc maxPages maxChars options =
        formatExtractedContent (seqPages doc maxPages maxChars options) options
          ++ (if maxChars ≤ seqCharCount doc maxPages maxChars options
              then truncationNotice maxChars doc.numPages else "")
    ∧ (maxChars ≤ seqCharCount doc maxPages maxChars options
        ↔ seqCharCount doc maxPages maxChars options = maxChars) := by
  have hle : (seqLoop doc options maxChars (seqPageNums doc maxPages) 0).2.1 ≤ maxChars :=
    seqLoop_charCount_le doc options maxChars _ 0 (Nat.zero_le _)
  have hsum := seqLoop_charCount_eq_sum doc options maxChars (seqPageNums doc maxPages) 0
  refine ⟨?_, ?_, ?_, ?_⟩
  · unfold seqPages seqState
    omega
  · unfold seqCharCount seqPages seqState
    omega
  · simp only [extractWithIntelligentLimits, seqCharCount, seqPages, seqState]
    split
    · rfl
    · exact (String.append_empty _).symm
  · unfold seqCharCount seqState
    omega

/-- Counterexample for C2 as stated: a 2-page document with 6-character
pages and `maxCharacters = 10` is truncated on the character boundary
(page 2 is excluded by the budget check), yet no truncation notice is
appended, because the accumulated count 6 never reaches 10. -/
theorem extractWithIntelligentLimits_truncated_without_notice :
    seqBrokeOnChars seqDemoDoc 50 10 {} = true
    ∧ extractWithIntelligentLimits seqDemoDoc 50 10 {} = "--- Page 1 ---\nxxxxxx"
    ∧ ¬ ("Truncated".data <:+: (extractWithIntelligentLimits seqDemoDoc 50 10 {}).data) := by
  refine ⟨by decide, by decide, by decide⟩

/-! ## C3 — explicit page-range strategy -/

/-- A page within `[1, numPages]` that parses is extracted with the image
flag masked by `options.extractImages`. -/
lemma extractPage_eq_some (doc : PDFDoc) (options : PDFProcessingOptions) (k : Nat) (d : PageData)
    (h1 : 1 ≤ k) (h2 : k ≤ doc.numPages) (hd : doc.page k = some d) :
    extractPageWithStructure doc (k : Int) options =
      some { d with hasImages := if options.extractImages.getD false then d.hasImages else false } := by
  unfold extractPageWithStructure getPageData
  have hc : ¬((k : Int) < 1 ∨ (doc.numPages : Int) < (k : Int)) := by omega
  rw [if_neg hc]
  simp [hd]

/-- A page at relevance `1.0` is formatted without a relevance
annotation. -/
lemma pageHeaderOf_no_relevance_annotation (p : PageContent) (h : p.relevance = 1) :
    pageHeaderOf p = "\n\n--- Page " ++ toString p.pageNum
      ++ (if p.hasImages then " [Contains Images]" else "") ++ " ---\n" := by
  unfold pageHeaderOf
  rw [h]
  simp

/-- C3: on a 10-page document whose pages 3–7 parse, the page range
`{start: 3, end: 7}` extracts exactly pages 3 through 7 inclusive, each at
relevance `1.0` and each formatted with a `--- Page N ---` header carrying
no relevance annotation; and `{start: 0, end: 999}` clamps to start 1 and
end 10, so it extracts the same result as `{start: 1, end: 10}`. -/
theorem explicit_pageRange_pages_3_to_7_and_clamping (doc : PDFDoc)
    (options : PDFProcessingOptions) (hnum : doc.numPages = 10)
    (hpages : ∀ n, 3 ≤ n → n ≤ 7 → (doc.page n).isSome) :
    (extractPagesWithStructure doc (pageRangeActualStart ⟨3, 7⟩)
        (pageRangeActualEnd doc ⟨3, 7⟩) options).map (·.pageNum) = [3, 4, 5, 6, 7]
    ∧ (∀ p ∈ extractPagesWithStructure doc (pageRangeActualStart ⟨3, 7⟩)
          (pageRangeActualEnd doc ⟨3, 7⟩) options,
        p.relevance = 1
        ∧ pageHeaderOf p = "\n\n--- Page " ++ toString p.pageNum
            ++ (if p.hasImages then " [Contains Images]" else "") ++ " ---\n")
    ∧ pageRangeActualStart ⟨0, 999⟩ = 1 ∧ pageRangeActualEnd doc ⟨0, 999⟩ = 10
    ∧ extractByPageRange doc ⟨0, 999⟩ options = extractByPageRange doc ⟨1, 10⟩ options := by
  obtain ⟨d3, hd3⟩ := Option.isSome_iff_exists.mp (hpages 3 (by norm_num) (by norm_num))
  obtain ⟨d4, hd4⟩ := Option.isSome_iff_exists.mp (hpages 4 (by norm_num) (by norm_num))
  obtain ⟨d5, hd5⟩ := Option.isSome_iff_exists.mp (hpages 5 (by norm_num) (by norm_num))
  obtain ⟨d6, hd6⟩ := Option.isSome_iff_exists.mp (hpages 6 (by norm_num) (by norm_num))
  obtain ⟨d7, hd7⟩ := Option.isSome_iff_exists.mp (hpages 7 (by norm_num) (by norm_num))
  have hs : pageRangeActualStart ⟨3, 7⟩ = 3 := by decide
  have he : pageRangeActualEnd doc ⟨3, 7⟩ = 7 := by
    unfold pageRangeActualEnd; rw [hnum]; decide
  have e3 := extractPage_eq_some doc options 3 d3 (by norm_num) (by omega) hd3
  have e4 := extractPage_eq_some doc options 4 d4 (by norm_num) (by omega) hd4
  have e5 := extractPage_eq_some doc options 5 d5 (by norm_num) (by omega) hd5
  have e6 := extractPage_eq_some doc options 6 d6 (by norm_num) (by omega) hd6
  have e7 := extractPage_eq_some doc options 7 d7 (by norm_num) (by omega) hd7
  push_cast at e3 e4 e5 e6 e7
  have hr : ((7 : Int) - 3 + 1).toNat = 5 := by decide
  have hrange : List.range 5 = [0, 1, 2, 3, 4] := by decide
  have hlist : extractPagesWithStructure doc (pageRangeActualStart ⟨3, 7⟩)
      (pageRangeActualEnd doc ⟨3, 7⟩) options =
      [⟨3, d3.content, 1, d3.sections,
          if options.extractImages.getD false then d3.hasImages else false, d3.metadata⟩,
       ⟨4, d4.content, 1, d4.sections,
          if options.extractImages.getD false then d4.hasImages else false, d4.metadata⟩,
       ⟨5, d5.content, 1, d5.sections,
          if options.extractImages.getD false then d5.hasImages else false, d5.metadata⟩,
       ⟨6, d6.content, 1, d6.sections,
          if options.extractImages.getD false then d6.hasImages else false, d6.metadata⟩,
       ⟨7, d7.content, 1, d7.sections,
          if options.extractImages.getD false then d7.hasImages else false, d7.metadata⟩] := by
    rw [hs, he]
    unfold extractPagesWithStructure
    rw [hr, hrange]
    norm_num [List.filterMap_cons, e3, e4, e5, e6, e7]
    decide
  refine ⟨?_, ?_, by decide, ?_, ?_⟩
  · rw [hlist]; rfl
  · rw [hlist]
    intro p hp
    simp only [List.mem_cons, List.not_mem_nil, or_false] at hp
    rcases hp with hp | hp | hp | hp | hp <;>
      (subst hp; exact ⟨rfl, pageHeaderOf_no_relevance_annotation _ rfl⟩)
  · unfold pageRangeActualEnd; rw [hnum]; decide
  · unfold extractByPageRange pageRangeActualStart pageRangeActualEnd
    rw [hnum]
    norm_num

/-- Witness for C3 at a concrete 10-page document. -/
theorem explicit_pageRange_pages_3_to_7_and_clamping_witness :
    (extractPagesWithStructure (uniformDoc 10) (pageRangeActualStart ⟨3, 7⟩)
        (pageRangeActualEnd (uniformDoc 10) ⟨3, 7⟩) {}).map (·.pageNum) = [3, 4, 5, 6, 7]
    ∧ extractByPageRange (uniformDoc 10) ⟨0, 999⟩ {}
        = extractByPageRange (uniformDoc 10) ⟨1, 10⟩ {} := by
  have h := explicit_pageRange_pages_3_to_7_and_clamping (uniformDoc 10) {} rfl
    (fun n h3 h7 => by
      simp only [uniformDoc]
      rw [if_pos ⟨by omega, by omega⟩]
      rfl)
  exact ⟨h.1, h.2.2.2.2⟩

/-! ## C5 — per-file cache key derivation -/

/-- Counterexample for C5 as stated: the key under which
`PDFParser.parseFile` stores and looks up extraction results is the raw
`path:size:mtime` string, not a message digest of it: for the file
`a.pdf` of size 10 and mtime 5 the key has length 10, so it cannot equal
the output of any digest function producing 32-character hex strings (as
the crypto-js MD5 `toString()` always does). -/
theorem getCacheKeyWithOptions_is_not_a_digest :
    ¬ ∃ digest : String → String, (∀ s, (digest s).length = 32)
        ∧ getCacheKeyWithOptions (fun _ => "j") ⟨"a.pdf", "a", 10, 5⟩ none
            = digest (cacheBaseKey ⟨"a.pdf", "a", 10, 5⟩) := by
  rintro ⟨digest, hlen, heq⟩
  have h10 : (getCacheKeyWithOptions (fun _ => "j") ⟨"a.pdf", "a", 10, 5⟩ none).length = 10 := by
    decide
  rw [heq, hlen] at h10
  exact absurd h10 (by norm_num)

/-- C5, amended: `PDFParser.getCacheKeyWithOptions` returns the raw,
unhashed string `path:size:mtime`, with `:JSON(options)` appended exactly
when the options object is present and non-empty; the MD5 digest exists
only in `PDFCache.getCacheKey`, which hashes `path:size:mtime` with no
options component and is not used by `parseFile`'s store/lookup path. -/
theorem cache_key_raw_string_with_options_suffix
    (jsonStr : PDFProcessingOptions → String) (md5hex : String → String) (file : TFileModel) :
    getCacheKeyWithOptions jsonStr file none = cacheBaseKey file
    ∧ (∀ o : PDFProcessingOptions, optionsEmpty o = true →
        getCacheKeyWithOptions jsonStr file (some o) = cacheBaseKey file)
    ∧ (∀ o : PDFProcessingOptions, optionsEmpty o = false →
        getCacheKeyWithOptions jsonStr file (some o) = cacheBaseKey file ++ ":" ++ jsonStr o)
    ∧ pdfCacheGetCacheKey md5hex file = md5hex (cacheBaseKey file) := by
  refine ⟨rfl, ?_, ?_, rfl⟩
  · intro o ho
    simp [getCacheKeyWithOptions, optionsAbsentOrEmpty, ho]
  · intro o ho
    simp [getCacheKeyWithOptions, optionsAbsentOrEmpty, ho]

/-- Witness for C5's amended statement at a concrete file, with empty and
non-empty options. -/
theorem cache_key_raw_string_with_options_suffix_witness :
    getCacheKeyWithOptions (fun _ => "jsonblob") ⟨"a.pdf", "a", 10, 5⟩
        (some { maxPages := some 3 }) = "a.pdf:10:5:jsonblob"
    ∧ getCacheKeyWithOptions (fun _ => "jsonblob") ⟨"a.pdf", "a", 10, 5⟩ (some {})
        = "a.pdf:10:5" := by
  have h := cache_key_raw_string_with_options_suffix (fun _ => "jsonblob") (fun s => s)
    ⟨"a.pdf", "a", 10, 5⟩
  constructor
  · rw [h.2.2.1 { maxPages := some 3 } (by decide)]
    decide
  · rw [h.2.1 {} (by decide)]
    decide

/-! ## C7 — error containment at the parsing façade -/

/-- C7: `PDFParser.parseFile` is a total function (no input makes it
throw), and when the cache misses and the underlying document cannot be
opened, it returns the descriptive error string
`[Error: Could not extract content from PDF <basename>. <reason>]` — the
reason being the rethrown open-failure message of whichever parser the
effective options select — leaving the filesystem untouched. -/
theorem parseFile_embeds_open_failure (jsonStr : PDFProcessingOptions → String)
    (parse : String → Option CachedPdfResponse) (stringify : CachedPdfResponse → String)
    (mlog : Nat → ℚ) (fs : VaultFS) (file : TFileModel)
    (options : Option PDFProcessingOptions) (reason : String)
    (hmiss : getWithKey parse fs (getCacheKeyWithOptions jsonStr file options) = none) :
    parseFile jsonStr parse stringify mlog fs file options (.error reason)
      = ("[Error: Could not extract content from PDF " ++ file.basename ++ ". "
          ++ (if optionsEmpty (getProcessingOptions file.size options)
              then "Local PDF parsing failed: " ++ reason
              else "Selective PDF parsing failed: " ++ reason) ++ "]", fs) := by
  simp only [parseFile]
  rw [hmiss]
  by_cases h : optionsEmpty (getProcessingOptions file.size options) <;>
    simp [h, extractTextFromPDF, localExtractTextFromPDF]

/-- Witness for C7: a concrete unreadable document behind an empty cache. -/
theorem parseFile_embeds_open_failure_witness :
    parseFile (fun _ => "j") (fun _ => none) (fun r => r.response) (fun _ => 0) []
        ⟨"a.pdf", "a", 10, 5⟩ none (.error "bad bytes")
      = ("[Error: Could not extract content from PDF a. Local PDF parsing failed: bad bytes]",
         []) := by
  have h := parseFile_embeds_open_failure (fun _ => "j") (fun _ => none) (fun r => r.response)
    (fun _ => 0) [] ⟨"a.pdf", "a", 10, 5⟩ none "bad bytes" rfl
  rw [h]
  have hopt : getProcessingOptions 10 none = {} := by
    unfold getProcessingOptions
    norm_num [optionsAbsentOrEmpty]
  rw [hopt]
  rfl

/-! ## C9 — determinism of extraction and purity of the relevance score -/

/-- C9: the relevance score is a pure function of page content, sections
and metadata — two pages agreeing on those (whatever their image flags)
score identically under any search terms — and the extraction entry point
is a pure function of the document's observable interface and the options:
two runs over collaborators exposing the same page count, pages and
outline produce byte-identical output (the embedding threads no other
state, so runs with the cache empty cannot differ). -/
theorem relevance_pure_and_extraction_deterministic (mlog : Nat → ℚ) :
    (∀ (searchTerms : List String) (p q : PageData),
      p.content = q.content → p.sections = q.sections → p.metadata = q.metadata →
      calculateEnhancedRelevance mlog p searchTerms = calculateEnhancedRelevance mlog q searchTerms)
    ∧ (∀ (doc₁ doc₂ : PDFDoc) (options : PDFProcessingOptions),
      doc₁.numPages = doc₂.numPages → (∀ n, doc₁.page n = doc₂.page n) →
      doc₁.outline = doc₂.outline →
      extractTextFromPDF mlog (.ok doc₁) options = extractTextFromPDF mlog (.ok doc₂) options) := by
  constructor
  · intro terms p q h1 h2 h3
    unfold calculateEnhancedRelevance
    rw [h1, h2, h3]
  · intro d1 d2 options h1 h2 h3
    obtain ⟨n1, p1, o1⟩ := d1
    obtain ⟨n2, p2, o2⟩ := d2
    simp only at h1 h2 h3
    subst h1
    subst h3
    have : p1 = p2 := funext h2
    subst this
    rfl

/-- Witness for C9: pages differing only in the image flag, and one
document given twice. -/
theorem relevance_pure_and_extraction_deterministic_witness :
    calculateEnhancedRelevance (fun _ => 0)
        { samplePageData "hello" with hasImages := true } ["hello"]
      = calculateEnhancedRelevance (fun _ => 0) (samplePageData "hello") ["hello"]
    ∧ extractTextFromPDF (fun _ => 0) (.ok (uniformDoc 2)) {}
        = extractTextFromPDF (fun _ => 0) (.ok (uniformDoc 2)) {} :=
  ⟨(relevance_pure_and_extraction_deterministic (fun _ => 0)).1 ["hello"] _ _ rfl rfl rfl,
   (relevance_pure_and_extraction_deterministic (fun _ => 0)).2 (uniformDoc 2) (uniformDoc 2) {}
     rfl (fun _ => rfl) rfl⟩

/-! ## C8 -- inline options parsing -/

/-- `String.mk` is left inverse to `String.data`. -/
lemma stringMk_data (s : String) : String.mk s.data = s := rfl

/-- A chunk without the separator is returned whole. -/
lemma splitCharAux_of_not_mem (sep : Char) :
    ∀ (l acc : List Char), sep ∉ l → splitCharAux sep l acc = [acc.reverse ++ l] := by
  intro l
  induction l with
  | nil => intro acc _; simp [splitCharAux]
  | cons c rest ih =>
    intro acc h
    have hc : ¬(c = sep) := fun hc => h (by simp [hc])
    have hrest : sep ∉ rest := fun hr => h (List.mem_cons_of_mem _ hr)
    simp [splitCharAux, hc, ih _ hrest]

/-- Splitting at the first separator occurrence. -/
lemma splitCharAux_append_sep (sep : Char) :
    ∀ (l₁ l₂ acc : List Char), sep ∉ l₁ →
      splitCharAux sep (l₁ ++ sep :: l₂) acc = (acc.reverse ++ l₁) :: splitCharAux sep l₂ [] := by
  intro l₁
  induction l₁ with
  | nil => intro l₂ acc _; simp [splitCharAux]
  | cons c rest ih =>
    intro l₂ acc h
    have hc : ¬(c = sep) := fun hc => h (by simp [hc])
    have hrest : sep ∉ rest := fun hr => h (List.mem_cons_of_mem _ hr)
    simp [splitCharAux, hc, ih _ _ hrest]

/-- The characters of `key ++ ":" ++ value`. -/
lemma data_append_colon (key value : String) :
    (key ++ ":" ++ value).data = key.data ++ ':' :: value.data := by
  simp [String.data_append]

/-- A single comma-free `key:value` part splits as expected on `,` and
`:`. -/
lemma jsSplitChar_single (key value : String)
    (hk : ',' ∉ key.data) (hkc : ':' ∉ key.data)
    (hv : ',' ∉ value.data) (hvc : ':' ∉ value.data) :
    jsSplitChar ',' (key ++ ":" ++ value) = [key ++ ":" ++ value]
    ∧ jsSplitChar ':' (key ++ ":" ++ value) = [key, value] := by
  constructor
  · unfold jsSplitChar
    rw [splitCharAux_of_not_mem]
    · simp only [List.reverse_nil, List.nil_append, List.map_cons, List.map_nil]
    · rw [data_append_colon]
      simp_all
  · unfold jsSplitChar
    rw [data_append_colon, splitCharAux_append_sep _ _ _ _ hkc,
        splitCharAux_of_not_mem _ _ _ hvc]
    simp [stringMk_data]

/-- `splitPart` of a colon-free key and value. -/
lemma splitPart_single (key value : String)
    (hkc : ':' ∉ key.data) (hvc : ':' ∉ value.data) :
    splitPart (key ++ ":" ++ value) = (jsTrim key, some (jsTrim value)) := by
  unfold splitPart jsSplitChar
  rw [data_append_colon, splitCharAux_append_sep _ _ _ _ hkc,
      splitCharAux_of_not_mem _ _ _ hvc]
  simp

/-- A one-part options string is processed by a single `switch` pass. -/
lemma parseEmbedOptions_single (key value : String)
    (hk : ',' ∉ key.data) (hkc : ':' ∉ key.data)
    (hv : ',' ∉ value.data) (hvc : ':' ∉ value.data) :
    parseEmbedOptions (some (key ++ ":" ++ value)) =
      applyEmbedOption {} (key ++ ":" ++ value) := by
  have hdef : parseEmbedOptions (some (key ++ ":" ++ value))
      = List.foldlM applyEmbedOption {} (jsSplitChar ',' (key ++ ":" ++ value)) := rfl
  rw [hdef, (jsSplitChar_single key value hk hkc hv hvc).1]
  cases happ : applyEmbedOption {} (key ++ ":" ++ value) <;> simp [List.foldlM, happ]

/-- Counterexample for C8 as stated: the malformed numeric value in
`max:abc` does not leave `maxPages` unset -- `parseInt("abc")` is `NaN`
and the switch assigns it unconditionally, so the `maxPages` key is
present (holding NaN) in the resulting options object. -/
theorem parseEmbedOptions_malformed_max_sets_nan :
    parseEmbedOptions (some "max:abc") = .ok { maxPages := some none }
    ∧ parseEmbedOptions (some "max:abc") ≠ .ok {} := by
  refine ⟨rfl, fun h => ?_⟩
  have := Except.ok.inj (((rfl :
    parseEmbedOptions (some "max:abc") = .ok { maxPages := some none }).symm).trans h)
  exact absurd this (by decide)

/-- C8, amended: for a single `key:value` part (key and value free of `,`
and `:`), a key outside the recognized set
`pages, search, chapter, chapters, max, chars, characters` contributes
nothing; a `pages` value with no `S-E` (digits-dash-digits) match leaves
`pageRange` unset; but `max` and `chars` assign the raw `parseInt` result
unconditionally, so a malformed numeric value sets the option to NaN
(`some none`) instead of leaving it unset. -/
theorem parseEmbedOptions_keys_and_malformed_values (key value : String)
    (hk : ',' ∉ key.data) (hkc : ':' ∉ key.data)
    (hv : ',' ∉ value.data) (hvc : ':' ∉ value.data) :
    (jsToLower (jsTrim key) ∉
        (["pages", "search", "chapter", "chapters", "max", "chars", "characters"] : List String) →
      parseEmbedOptions (some (key ++ ":" ++ value)) = .ok {})
    ∧ (jsToLower (jsTrim key) = "pages" → pageRangeMatch (jsTrim value).data = none →
      parseEmbedOptions (some (key ++ ":" ++ value)) = .ok {})
    ∧ (jsToLower (jsTrim key) = "max" →
      parseEmbedOptions (some (key ++ ":" ++ value)) =
        .ok { maxPages := some (jsParseInt (jsTrim value)) })
    ∧ (jsToLower (jsTrim key) = "chars" →
      parseEmbedOptions (some (key ++ ":" ++ value)) =
        .ok { maxCharacters := some (jsParseInt (jsTrim value)) }) := by
  have hsingle := parseEmbedOptions_single key value hk hkc hv hvc
  have hsplit := splitPart_single key value hkc hvc
  refine ⟨?_, ?_, ?_, ?_⟩
  · intro hnotin
    simp only [List.mem_cons, List.not_mem_nil, or_false, not_or] at hnotin
    obtain ⟨n1, n2, n3, n4, n5, n6, n7⟩ := hnotin
    rw [hsingle]
    unfold applyEmbedOption
    rw [hsplit]
    split
    all_goals simp_all
  · intro hkey hmatch
    rw [hsingle]
    unfold applyEmbedOption
    rw [hsplit]
    simp only [hkey]
    simp [hmatch]
  · intro hkey
    rw [hsingle]
    unfold applyEmbedOption
    rw [hsplit]
    simp [hkey, jsParseIntOpt]
  · intro hkey
    rw [hsingle]
    unfold applyEmbedOption
    rw [hsplit]
    simp [hkey, jsParseIntOpt]

/-- Witness for C8's amended statement: an unknown key, a malformed pages
value, and a non-numeric max value. -/
theorem parseEmbedOptions_keys_and_malformed_values_witness :
    parseEmbedOptions (some ("foo" ++ ":" ++ "bar")) = .ok {}
    ∧ parseEmbedOptions (some ("pages" ++ ":" ++ "xyz")) = .ok {}
    ∧ parseEmbedOptions (some ("max" ++ ":" ++ "abc")) =
        .ok { maxPages := some (jsParseInt (jsTrim "abc")) } := by
  refine ⟨?_, ?_, ?_⟩
  · exact (parseEmbedOptions_keys_and_malformed_values "foo" "bar"
      (by decide) (by decide) (by decide) (by decide)).1 (by decide)
  · exact (parseEmbedOptions_keys_and_malformed_values "pages" "xyz"
      (by decide) (by decide) (by decide) (by decide)).2.1 (by decide) (by decide)
  · exact (parseEmbedOptions_keys_and_malformed_values "max" "abc"
      (by decide) (by decide) (by decide) (by decide)).2.2.1 (by decide)

/-! ## C1 -- search-strategy context window -/

/-- A 5-page document where only page 3 contains the search term
`test`. -/
def searchDemoDoc : PDFDoc :=
  { numPages := 5,
    page := fun n =>
      if 1 ≤ n ∧ n ≤ 5 then
        some (samplePageData (if n = 3 then "test" else "none here"))
      else none,
    outline := none }

/-- The page containing its single search term once scores
`Math.log(5) / 4`. -/
lemma calcRel_match (mlog : Nat → ℚ) :
    calculateEnhancedRelevance mlog (samplePageData "test") ["test"] = mlog 5 / 4 := by
  have hlen : "test".length = 4 := rfl
  unfold calculateEnhancedRelevance samplePageData
  norm_num [jsToLower, jsIncludes, countOccur, countOccurPos, idxOf, idxOfAux,
    Rat.mkRat_eq_div]
  simp +decide [hlen]

/-- A page without the search term scores `0`. -/
lemma calcRel_nomatch (mlog : Nat → ℚ) :
    calculateEnhancedRelevance mlog (samplePageData "none here") ["test"] = 0 := by
  unfold calculateEnhancedRelevance samplePageData
  norm_num [jsToLower, jsIncludes, countOccur, countOccurPos, idxOf, idxOfAux,
    Rat.mkRat_eq_div]
  simp +decide

/-- Every page of `searchDemoDoc` parses to its fixture data. -/
lemma searchDemo_page_eq (n : Nat) (h1 : 1 ≤ n) (h5 : n ≤ 5) :
    extractPageWithStructure searchDemoDoc (n : Int) {} =
      some (samplePageData (if n = 3 then "test" else "none here")) := by
  have := extractPage_eq_some searchDemoDoc {} n
    (samplePageData (if n = 3 then "test" else "none here")) h1 h5
    (by simp only [searchDemoDoc]; rw [if_pos ⟨h1, h5⟩])
  simpa [samplePageData] using this

/-- The first search pass over `searchDemoDoc` retains exactly page 3
(pages scoring 0 fall below the default `minRelevanceScore = 0.01`). -/
lemma searchDemo_analysis (mlog : Nat → ℚ) (hrel : mkRat 1 100 ≤ mlog 5 / 4) :
    searchPageAnalysis mlog searchDemoDoc ["test"] {} (mkRat 1 100) =
      [⟨3, "test", mlog 5 / 4, [], false,
        { wordCount := 1, avgWordLength := 1, hasNumbers := false,
          hasReferences := false, textDensity := mkRat 1 2 }⟩] := by
  have hno : ¬(mkRat 1 100 ≤ (0 : ℚ)) := by norm_num [Rat.mkRat_eq_div]
  have e1 := searchDemo_page_eq 1 (by norm_num) (by norm_num)
  have e2 := searchDemo_page_eq 2 (by norm_num) (by norm_num)
  have e3 := searchDemo_page_eq 3 (by norm_num) (by norm_num)
  have e4 := searchDemo_page_eq 4 (by norm_num) (by norm_num)
  have e5 := searchDemo_page_eq 5 (by norm_num) (by norm_num)
  push_cast at e1 e2 e3 e4 e5
  unfold searchPageAnalysis
  have hrange : List.range (searchDemoDoc.numPages) = [0, 1, 2, 3, 4] := by decide
  rw [hrange]
  norm_num [List.filterMap_cons, e1, e2, e3, e4, e5,
    calcRel_match, calcRel_nomatch, hno, hrel]
  simp [samplePageData]
  have hrel2 : (100 : ℚ)⁻¹ ≤ mlog 5 / 4 := by
    rw [show ((100 : ℚ))⁻¹ = mkRat 1 100 by norm_num [Rat.mkRat_eq_div]]
    exact hrel
  rw [if_pos hrel2]
  norm_num [Rat.mkRat_eq_div]

/-- `selectPagesWithContext` over a single relevant page (defaults
`maxPages = 50`, `contextWindow = 2`): the neighbor page numbers enter the
selected set, but the final `find` against `pageAnalysis` drops every page
that was not itself relevant, leaving only the matching page. -/
lemma selectPagesWithContext_singleton (p : PageContent) (hp : p.pageNum = 3) :
    selectPagesWithContext [p] 50 2 = [p] := by
  unfold selectPagesWithContext
  norm_num [hp, setAdd, List.insertionSort, List.orderedInsert]

/-- C1, the code's actual behavior at the claim's scenario: on a 5-page
document whose single matching page is 3, with `contextWindow = 2` and
defaults otherwise, the search strategy returns only page 3 — not the
claimed `{1, 2, 3, 4, 5}`.  The context pages 1, 2, 4, 5 are added to the
selected page-number set but are dropped because
`pageAnalysis.find(p => p.pageNum === num)` has no entry for pages that
were not themselves relevant.  (`mlog` is `Math.log`; the hypothesis says
page 3's score `log(5)/4` clears the default threshold `0.01`, true of
the real logarithm, `log(5)/4 ≈ 0.40`.) -/
theorem search_single_match_returns_only_that_page (mlog : Nat → ℚ)
    (hrel : mkRat 1 100 ≤ mlog 5 / 4) :
    (extractByIntelligentSearchSelected mlog searchDemoDoc ["test"] {}).map (·.pageNum)
      = [3] := by
  have hdef : extractByIntelligentSearchSelected mlog searchDemoDoc ["test"] {} =
      selectPagesWithContext
        (List.insertionSort (fun a b => b.relevance ≤ a.relevance)
          (searchPageAnalysis mlog searchDemoDoc ["test"] {} (mkRat 1 100))) 50 2 := rfl
  rw [hdef, searchDemo_analysis mlog hrel]
  rw [show List.insertionSort (fun a b => b.relevance ≤ a.relevance)
        [(⟨3, "test", mlog 5 / 4, [], false,
          { wordCount := 1, avgWordLength := 1, hasNumbers := false,
            hasReferences := false, textDensity := mkRat 1 2 }⟩ : PageContent)]
      = [⟨3, "test", mlog 5 / 4, [], false,
          { wordCount := 1, avgWordLength := 1, hasNumbers := false,
            hasReferences := false, textDensity := mkRat 1 2 }⟩] by
    simp [List.insertionSort]]
  rw [selectPagesWithContext_singleton _ rfl]
  rfl

/-- Witness for C1 at the concrete log stand-in `fun _ => 4`. -/
theorem search_single_match_returns_only_that_page_witness :
    mkRat 1 100 ≤ (fun _ => (4 : ℚ)) 5 / 4
    ∧ (extractByIntelligentSearchSelected (fun _ => (4 : ℚ)) searchDemoDoc
        ["test"] {}).map (·.pageNum) = [3] :=
  ⟨by norm_num [Rat.mkRat_eq_div],
   search_single_match_returns_only_that_page (fun _ => (4 : ℚ))
     (by norm_num [Rat.mkRat_eq_div])⟩

end ObsidianCopilot
